import Mathlib

/-!
# mkhttps: a TLS-terminating reverse proxy (main.go)

A shallow embedding of `main.go`: the request handler `handleFunc`, the
certificate bootstrap `mkcert` and the start-up sequence `main`.

Go maps are association lists with pairwise distinct keys, library calls whose
result the program cannot determine (the transport, the clock, the random
source, the user database, the listener) are inputs of the model, and every
observable action is appended to a trace of events.
-/

namespace Mkhttps

/-! ## Header maps -/

/-- A Go `http.Header`, that is `map[string][]string`: one entry per key. -/
abbrev Header := List (String × List String)

/-- The keys stored in a header map. -/
def Header.keys (h : Header) : List String := h.map Prod.fst

/-- The Go map invariant: no key is stored twice. -/
def Header.WellFormed (h : Header) : Prop := (Header.keys h).Nodup

instance (h : Header) : Decidable (Header.WellFormed h) :=
  inferInstanceAs (Decidable (Header.keys h).Nodup)

/-- The map read `h[k]`, with `none` for an absent key. -/
def Header.get (h : Header) (k : String) : Option (List String) := List.lookup k h

/-- The map write `h[k] = v`: replaces the entry of `k`, or adds one. -/
def Header.set : Header → String → List String → Header
  | [], k, v => [(k, v)]
  | (k0, v0) :: rest, k, v =>
    if k0 = k then (k, v) :: rest else (k0, v0) :: Header.set rest k v

/-- The table `blockedRequestKeys` of main.go, lines 21-26. -/
def blockedRequestKeysTable : List (String × Bool) :=
  [("Forwarded", true),
   ("X-Forwarded-For", true),
   ("X-Forwarded-Host", true),
   ("X-Forwarded-Proto", true)]

/-- The map read `blockedRequestKeys[k]`: an absent key reads as `false`. -/
def blockedRequestKeys (k : String) : Bool :=
  (List.lookup k blockedRequestKeysTable).getD false

/-- One iteration of the loop of lines 64-69. -/
def filterStep (hh : Header) (e : String × List String) : Header :=
  if blockedRequestKeys e.1 then hh else Header.set hh e.1 e.2

/-- The loop of lines 63-69: `hh` starts empty and receives every entry of
the inbound map whose key is not blocked. -/
def filterHeader (h : Header) : Header := h.foldl filterStep []

/-- ASCII case folding of a header name. -/
def foldCase (s : String) : List Char := s.data.map Char.toLower

/-- Case-insensitive equality of two header names. -/
def equalFold (a b : String) : Bool := decide (foldCase a = foldCase b)

/-- The four names of the Blocked Header Set. -/
def blockedNames : List String :=
  ["Forwarded", "X-Forwarded-For", "X-Forwarded-Host", "X-Forwarded-Proto"]

/-! ## Requests, responses and the response writer -/

/-- The fields of a Go `url.URL`. -/
structure URL where
  Scheme : String
  OpaqueData : String
  User : Option String
  Host : String
  Path : String
  RawPath : String
  ForceQuery : Bool
  RawQuery : String
  Fragment : String
  RawFragment : String
deriving DecidableEq, Repr

/-- A body stream: the bytes it yields, then end of file (`none`) or a read
error. -/
structure BodyStream where
  data : List Nat
  err : Option String
deriving DecidableEq, Repr

/-- The fields of `http.Request` that main.go reads or writes. -/
structure Request where
  Method : String
  URL : URL
  Header : Header
  Body : BodyStream
deriving DecidableEq, Repr

/-- The fields of `http.Response` that main.go reads or writes. -/
structure Response where
  Status : String
  StatusCode : Nat
  Header : Header
  Body : BodyStream
deriving DecidableEq, Repr

/-- The state of an `http.ResponseWriter`: the header map that `w.Header()`
returns, and what has been sent to the caller so far. -/
structure ResponseWriter where
  header : Header
  wroteHeader : Bool
  status : Nat
  sentHeader : Header
  body : List Nat
deriving DecidableEq, Repr

/-- A response writer as the server hands it to a handler. -/
def ResponseWriter.fresh : ResponseWriter :=
  { header := [], wroteHeader := false, status := 0, sentHeader := [], body := [] }

/-- The call `w.WriteHeader(code)`: the first call commits the status code and
the header map as it stands; later calls are ignored. -/
def ResponseWriter.WriteHeader (w : ResponseWriter) (code : Nat) : ResponseWriter :=
  if w.wroteHeader then w
  else { w with wroteHeader := true, status := code, sentHeader := w.header }

/-- The call `w.Write(bytes)`: commits status 200 first when no status has been
written. -/
def ResponseWriter.Write (w : ResponseWriter) (bytes : List Nat) : ResponseWriter :=
  let w1 := ResponseWriter.WriteHeader w 200
  { w1 with body := w1.body ++ bytes }

/-- The UTF-8 bytes of a string. -/
def utf8Bytes (s : String) : List Nat :=
  (s.data.flatMap String.utf8EncodeChar).map UInt8.toNat

/-- The library call `http.Error(w, msg, code)`: sets the two plain-text
headers, writes the status code, then prints `msg` and a line end as body. -/
def httpError (w : ResponseWriter) (msg : String) (code : Nat) : ResponseWriter :=
  let h1 := Header.set w.header "Content-Type" ["text/plain; charset=utf-8"]
  let h2 := Header.set h1 "X-Content-Type-Options" ["nosniff"]
  let w1 := ResponseWriter.WriteHeader { w with header := h2 } code
  ResponseWriter.Write w1 (utf8Bytes (msg ++ "\n"))

/-- An argument of a formatted print. -/
inductive FmtArg where
  | str (s : String)
  | url (u : URL)
  | err (e : String)
deriving DecidableEq, Repr

/-- The observable actions of the handler, in the order they happen. -/
inductive Event where
  | printf (format : String) (args : List FmtArg)
  | logPrintf (format : String) (args : List FmtArg)
  | logPrint (args : List FmtArg)
  | roundTrip (rr : Request)
  | closeBody
deriving DecidableEq, Repr

/-- What a call of `handleFunc` leaves behind: the response writer, the inbound
request (the handler holds a pointer to it), the upstream response if one was
received, the trace of events, and the run-time error if the handler died. -/
structure HandlerResult where
  w : ResponseWriter
  r : Request
  resp : Option Response
  trace : List Event
  panicked : Option String
deriving DecidableEq, Repr

/-- The request built by lines 62-79 for upstream host `u`. -/
def forwardedRequest (u : String) (r : Request) : Request :=
  { Method := r.Method,
    URL := { r.URL with Host := u },
    Header := filterHeader r.Header,
    Body := r.Body }

/-- The call `io.Copy(w, body)`: writes what the stream yields and returns the
read error, if any. -/
def ioCopy (w : ResponseWriter) (body : BodyStream) : ResponseWriter × Option String :=
  (if body.data = [] then w else ResponseWriter.Write w body.data, body.err)

/-- The handler `handleFunc` of lines 59-97. `osArgs` is `os.Args` and
`roundTrip` is `http.DefaultTransport.RoundTrip`. -/
def handleFunc (osArgs : List String) (roundTrip : Request → Except String Response)
    (w : ResponseWriter) (r : Request) : HandlerResult :=
  -- line 60
  let t0 : List Event := [Event.printf "--> %v %v\n" [FmtArg.str r.Method, FmtArg.url r.URL]]
  -- lines 63-69 and 74-79 are in forwardedRequest; line 71 indexes os.Args
  match osArgs[1]? with
  | none =>
    { w := w, r := r, resp := none, trace := t0,
      panicked := some "index out of range" }
  | some u =>
    let rr := forwardedRequest u r
    let r1 : Request := { r with URL := rr.URL }
    -- line 82
    let t1 := t0 ++ [Event.roundTrip rr]
    match roundTrip rr with
    | Except.error _ =>
      -- lines 83-86
      { w := httpError w "Could not reach origin server" 500, r := r1, resp := none,
        trace := t1, panicked := none }
    | Except.ok resp =>
      -- line 89
      let t2 := t1 ++ [Event.logPrintf "<-- %v\n" [FmtArg.str resp.Status]]
      -- line 91
      let resp1 : Response := { resp with Header := w.header }
      -- line 92
      let w1 := ResponseWriter.WriteHeader w resp1.StatusCode
      -- lines 93-96
      let c := ioCopy w1 resp1.Body
      let t3 := match c.2 with
        | some e => t2 ++ [Event.logPrint [FmtArg.err e]]
        | none => t2
      -- line 87, deferred
      { w := c.1, r := r1, resp := some resp1, trace := t3 ++ [Event.closeBody],
        panicked := none }

/-- The requests handed to the transport, in order. -/
def dispatched : List Event → List Request
  | [] => []
  | Event.roundTrip rr :: rest => rr :: dispatched rest
  | _ :: rest => dispatched rest

/-- Whether an event is a line written through the `log` package. -/
def Event.isLog : Event → Bool
  | Event.logPrintf _ _ => true
  | Event.logPrint _ => true
  | _ => false

/-! ## The file system, the clock and the certificate template -/

/-- A regular file: its permission bits and its content. -/
structure File where
  mode : Nat
  content : List Nat
deriving DecidableEq, Repr

/-- The file system as the program sees it: the files by path, the paths that
cannot be opened for writing (missing or protected directory), and the
process umask. `os.Stat` fails exactly on the paths with no file. -/
structure FS where
  files : List (String × File)
  denied : List String
  umask : Nat
deriving DecidableEq, Repr

/-- The file stored at a path. -/
def FS.lookup (fs : FS) (path : String) : Option File := List.lookup path fs.files

/-- Replaces or adds the file at a path. -/
def putFile : List (String × File) → String → File → List (String × File)
  | [], p, f => [(p, f)]
  | (p0, f0) :: rest, p, f =>
    if p0 = p then (p, f) :: rest else (p0, f0) :: putFile rest p f

/-- The permission bits a new file gets: the requested bits less the umask. -/
def applyUmask (perm umask : Nat) : Nat := perm ^^^ (perm &&& umask)

/-- The call `os.Stat(path)`, reduced to whether it returns an error. -/
def FS.stat (fs : FS) (path : String) : Except String Unit :=
  match FS.lookup fs path with
  | some _ => Except.ok ()
  | none => Except.error "no such file or directory"

/-- The call `os.OpenFile(path, O_WRONLY|O_CREATE|O_TRUNC, perm)`: an existing
file is emptied and keeps its mode; a missing one is created with `perm`
less the umask. -/
def FS.openTrunc (fs : FS) (path : String) (perm : Nat) : Except String FS :=
  if path ∈ fs.denied then Except.error "open failed"
  else
    match FS.lookup fs path with
    | some f => Except.ok { fs with files := putFile fs.files path { f with content := [] } }
    | none =>
      let f : File := { mode := applyUmask perm fs.umask, content := [] }
      Except.ok { fs with files := putFile fs.files path f }

/-- Appends bytes to the file at a path (a write through an open handle). -/
def FS.append (fs : FS) (path : String) (bytes : List Nat) : FS :=
  match FS.lookup fs path with
  | some f => { fs with files := putFile fs.files path { f with content := f.content ++ bytes } }
  | none => fs

/-- A point in time, in nanoseconds since the Unix epoch. -/
abbrev Time := Int

/-- A Go `time.Duration`: a signed 64-bit count of nanoseconds. -/
abbrev Duration := Int

/-- Reduction of an integer to the signed 64-bit range. -/
def wrapInt64 (x : Int) : Int := (x + 2 ^ 63) % 2 ^ 64 - 2 ^ 63

def Nanosecond : Duration := 1
def Microsecond : Duration := wrapInt64 (1000 * Nanosecond)
def Millisecond : Duration := wrapInt64 (1000 * Microsecond)
def Second : Duration := wrapInt64 (1000 * Millisecond)
def Minute : Duration := wrapInt64 (60 * Second)
def Hour : Duration := wrapInt64 (60 * Minute)

/-- The duration `3 * 365 * 24 * time.Hour` of line 105, in int64 arithmetic. -/
def certLifetime : Duration := wrapInt64 (wrapInt64 (wrapInt64 (3 * 365) * 24) * Hour)

/-- The method `t.Add(d)`. -/
def Time.Add (t : Time) (d : Duration) : Time := t + d

/-- The method `t.Sub(u)`: the difference, saturated to the int64 range. -/
def Time.Sub (t u : Time) : Duration :=
  if t - u > 2 ^ 63 - 1 then 2 ^ 63 - 1
  else if t - u < -(2 ^ 63) then -(2 ^ 63)
  else t - u

def KeyUsageDigitalSignature : Nat := 1 <<< 0
def KeyUsageContentCommitment : Nat := 1 <<< 1
def KeyUsageKeyEncipherment : Nat := 1 <<< 2

/-- An extended key usage of `crypto/x509`. -/
inductive ExtKeyUsage where
  | ExtKeyUsageAny
  | ExtKeyUsageServerAuth
  | ExtKeyUsageClientAuth
deriving DecidableEq, Repr

/-- The fields of `x509.Certificate` that main.go sets. -/
structure Certificate where
  SerialNumber : Nat
  Organization : List String
  NotBefore : Time
  NotAfter : Time
  KeyUsage : Nat
  ExtKeyUsage : List ExtKeyUsage
  BasicConstraintsValid : Bool
deriving DecidableEq, Repr

/-- The template of lines 104-122, for clock reading `now` and serial number
`serialNumber`. -/
def certTemplate (now : Time) (serialNumber : Nat) : Certificate :=
  let notBefore := now
  let notAfter := Time.Add notBefore certLifetime
  { SerialNumber := serialNumber,
    Organization := ["mkhttps"],
    NotBefore := notBefore,
    NotAfter := notAfter,
    KeyUsage := KeyUsageKeyEncipherment ||| KeyUsageDigitalSignature,
    ExtKeyUsage := [ExtKeyUsage.ExtKeyUsageServerAuth],
    BasicConstraintsValid := true }

/-! ## Start-up: `mkcert` and `main` -/

/-- An ECDSA private key with its public point. -/
structure PrivateKey where
  D : Nat
  X : Nat
  Y : Nat
deriving DecidableEq, Repr

/-- The results of the library calls of `mkcert` that the program does not
determine: key generation, the clock, the random serial number, signing,
key marshalling and PEM encoding (which fails when its writer fails). -/
structure CryptoEnv where
  generateKey : Except String PrivateKey
  now : Time
  randInt : Nat → Except String Nat
  createCertificate : Certificate → PrivateKey → Except String (List Nat)
  marshalECPrivateKey : PrivateKey → Except String (List Nat)
  pemEncode : String → List Nat → Except String (List Nat)

/-- The observable actions of start-up, in the order they happen. -/
inductive SysEvent where
  | stderrLine (line : String)
  | stat (path : String)
  | mkcertCall
  | openFile (path : String) (perm : Nat)
  | logPrint (args : List String)
  | handle (pattern : String)
  | listenAndServeTLS (addr certFile keyFile : String)
  | logFatal (msg : String)
deriving DecidableEq, Repr

/-- The state start-up works on: the file system and the trace so far. -/
structure World where
  fs : FS
  trace : List SysEvent
deriving DecidableEq, Repr

/-- Appends an event to the trace. -/
def World.emit (s : World) (e : SysEvent) : World := { s with trace := s.trace ++ [e] }

/-- How a run ends: it returns, dies in a run-time panic, exits with a status,
or stays in the listener for good. -/
inductive Outcome where
  | done
  | panic (msg : String)
  | exit (code : Nat)
  | serving
deriving DecidableEq, Repr

/-- The exit status of the process; an unrecovered panic exits with 2. -/
def Outcome.exitStatus : Outcome → Option Nat
  | Outcome.exit code => some code
  | Outcome.panic _ => some 2
  | _ => none

/-- The function `mkcert` of lines 100-145; `certFile` and `keyFile` are the
package variables of that name. Closing a file handle changes nothing in
this state and is left out. -/
def mkcert (env : CryptoEnv) (certFile keyFile : String) (s : World) : World × Outcome :=
  let s0 := World.emit s SysEvent.mkcertCall
  -- lines 101-102
  match env.generateKey with
  | Except.error e => (s0, Outcome.panic e)
  | Except.ok priv =>
    -- lines 104-109
    let serialNumberLimit := 1 <<< 128
    match env.randInt serialNumberLimit with
    | Except.error e => (s0, Outcome.panic e)
    | Except.ok serialNumber =>
      -- lines 111-125
      let template := certTemplate env.now serialNumber
      match env.createCertificate template priv with
      | Except.error e => (s0, Outcome.panic e)
      | Except.ok derBytes =>
        -- lines 127-129: os.Create is OpenFile with perm 0666
        let s1 := World.emit s0 (SysEvent.openFile certFile 0o666)
        match FS.openTrunc s1.fs certFile 0o666 with
        | Except.error e => (s1, Outcome.panic e)
        | Except.ok fs1 =>
          let s2 : World := { s1 with fs := fs1 }
          -- lines 131-133
          match env.pemEncode "CERTIFICATE" derBytes with
          | Except.error e => (s2, Outcome.panic e)
          | Except.ok certPem =>
            let s3 : World := { s2 with fs := FS.append s2.fs certFile certPem }
            -- lines 135-137
            match env.marshalECPrivateKey priv with
            | Except.error e => (s3, Outcome.panic e)
            | Except.ok privBytes =>
              -- lines 139-141
              let s4 := World.emit s3 (SysEvent.openFile keyFile 0o600)
              match FS.openTrunc s4.fs keyFile 0o600 with
              | Except.error e => (s4, Outcome.panic e)
              | Except.ok fs5 =>
                let s5 : World := { s4 with fs := fs5 }
                -- line 142
                match env.pemEncode "EC PRIVATE KEY" privBytes with
                | Except.error e => (s5, Outcome.panic e)
                | Except.ok keyPem =>
                  let s6 : World := { s5 with fs := FS.append s5.fs keyFile keyPem }
                  -- line 144
                  (World.emit s6 (SysEvent.logPrint ["Created new keypair: ", keyFile]),
                   Outcome.done)

/-- The bootstrap step of lines 42-44: the existence check on the key file,
then `mkcert` when the check fails. -/
def bootstrap (env : CryptoEnv) (certFile keyFile : String) (s : World) : World × Outcome :=
  let s0 := World.emit s (SysEvent.stat keyFile)
  match FS.stat s0.fs keyFile with
  | Except.error _ => mkcert env certFile keyFile s0
  | Except.ok _ => (s0, Outcome.done)

/-- The call `filepath.Join(dir, rel)` for a relative path `rel` that is
already clean. -/
def filepathJoin (dir rel : String) : String :=
  if dir = "" then rel else dir ++ "/" ++ rel

/-- The initial value of the package variable `certFile`, line 28. -/
def certFile : String := ".config/mkhttps.cert"

/-- The initial value of the package variable `keyFile`, line 29. -/
def keyFile : String := ".config/mkhttps.pem"

/-- What `main` gets from outside: the user database, the arguments, the
library calls of `mkcert`, and the error `ListenAndServeTLS` returns
(`none` when it never returns). -/
structure MainEnv where
  userCurrent : Except String String
  osArgs : List String
  crypto : CryptoEnv
  listenResult : Option String

/-- The function `main` of lines 31-57. -/
def main (env : MainEnv) (s : World) : World × Outcome :=
  -- lines 32-33
  match env.userCurrent with
  | Except.error e => (s, Outcome.panic e)
  | Except.ok homeDir =>
    -- lines 34-35
    let certFile1 := filepathJoin homeDir certFile
    let keyFile1 := filepathJoin homeDir keyFile
    -- lines 37-40
    if env.osArgs.length ≠ 3 then
      (World.emit s (SysEvent.stderrLine "Usage: mkhttps <src> <dst>\n"), Outcome.exit 1)
    else
      -- lines 42-44
      match bootstrap env.crypto certFile1 keyFile1 s with
      | (s1, Outcome.done) =>
        -- lines 46-53
        let s2 := World.emit s1 (SysEvent.handle "/")
        match env.osArgs[2]? with
        | none => (s2, Outcome.panic "index out of range")
        | some addr =>
          -- lines 55-56
          let s3 := World.emit s2 (SysEvent.logPrint ["Listening"])
          let s4 := World.emit s3 (SysEvent.listenAndServeTLS addr certFile1 keyFile1)
          match env.listenResult with
          | none => (s4, Outcome.serving)
          | some e => (World.emit s4 (SysEvent.logFatal e), Outcome.exit 1)
      | (s1, o) => (s1, o)

/-- Whether an event binds a socket or touches the file system. -/
def SysEvent.touchesSystem : SysEvent → Bool
  | SysEvent.stat _ => true
  | SysEvent.mkcertCall => true
  | SysEvent.openFile _ _ => true
  | SysEvent.listenAndServeTLS _ _ _ => true
  | _ => false

/-! ## Sample inputs -/

/-- An inbound header map with one blocked name. -/
def sampleHeader : Header :=
  [("Accept", ["*/*"]), ("X-Forwarded-For", ["203.0.113.7"]), ("Cookie", ["a=1", "b=2"])]

/-- An inbound header map whose only key is a lower-case variant of a blocked
name. -/
def lowerCaseHeader : Header := [("x-forwarded-for", ["203.0.113.7"])]

/-- The URL `https://anyhost/path?q=1`. -/
def sampleURL : URL :=
  { Scheme := "https", OpaqueData := "", User := none, Host := "anyhost", Path := "/path",
    RawPath := "", ForceQuery := false, RawQuery := "q=1", Fragment := "", RawFragment := "" }

/-- A `GET` request for `sampleURL` carrying `sampleHeader`. -/
def sampleRequest : Request :=
  { Method := "GET", URL := sampleURL, Header := sampleHeader,
    Body := { data := [], err := none } }

/-- The arguments `mkhttps upstream.example:9000 :8443`. -/
def sampleArgs : List String := ["mkhttps", "upstream.example:9000", ":8443"]

/-- A transport that reaches no origin server. -/
def refusingTransport : Request → Except String Response :=
  fun _ => Except.error "dial tcp 10.0.0.5:9000: connect: connection refused"

/-- A transport that times out. -/
def timeoutTransport : Request → Except String Response :=
  fun _ => Except.error "dial tcp 10.0.0.5:9000: i/o timeout"

/-- An upstream response with one header and a two-byte body. -/
def sampleResponse : Response :=
  { Status := "200 OK", StatusCode := 200,
    Header := [("Content-Type", ["text/html"])],
    Body := { data := [104, 105], err := none } }

/-- A transport that answers every request with `sampleResponse`. -/
def answeringTransport : Request → Except String Response :=
  fun _ => Except.ok sampleResponse

/-- Library calls that all succeed, with fixed results. -/
def sampleCrypto : CryptoEnv :=
  { generateKey := Except.ok { D := 7, X := 11, Y := 13 },
    now := 1700000000000000000,
    randInt := fun _ => Except.ok 42,
    createCertificate := fun _ _ => Except.ok [48, 130],
    marshalECPrivateKey := fun _ => Except.ok [48, 119],
    pemEncode := fun ty bytes => Except.ok (utf8Bytes ty ++ bytes) }

/-- The certificate path of user `alice`. -/
def sampleCertFile : String := filepathJoin "/home/alice" certFile

/-- The key path of user `alice`. -/
def sampleKeyFile : String := filepathJoin "/home/alice" keyFile

/-- A first run: no files yet, umask 022. -/
def emptyWorld : World :=
  { fs := { files := [], denied := [], umask := 0o022 }, trace := [] }

/-- A key file that is already there and readable by group and others. -/
def looseKeyWorld : World :=
  { fs := { files := [(sampleKeyFile, { mode := 0o644, content := [45, 45] })],
            denied := [], umask := 0o022 },
    trace := [] }

/-- An invocation with no arguments in which the user lookup fails. -/
def noUserEnv : MainEnv :=
  { userCurrent := Except.error "user: Current requires cgo or $USER set in environment",
    osArgs := ["mkhttps"],
    crypto := sampleCrypto,
    listenResult := none }

/-- An invocation with one argument by user `alice`. -/
def oneArgEnv : MainEnv :=
  { userCurrent := Except.ok "/home/alice",
    osArgs := ["mkhttps", "upstream.example:9000"],
    crypto := sampleCrypto,
    listenResult := none }

/-! ## Lemmas on header maps -/

theorem blockedRequestKeys_iff (k : String) :
    blockedRequestKeys k = true ↔ k ∈ blockedNames := by
  unfold blockedRequestKeys blockedRequestKeysTable blockedNames
  simp only [List.lookup, List.mem_cons, List.mem_singleton, List.not_mem_nil, or_false]
  by_cases h1 : k = "Forwarded"
  · simp [h1]
  by_cases h2 : k = "X-Forwarded-For"
  · simp [h2]
  by_cases h3 : k = "X-Forwarded-Host"
  · simp [h3]
  by_cases h4 : k = "X-Forwarded-Proto"
  · simp [h4]
  have e1 : (k == "Forwarded") = false := by simpa using h1
  have e2 : (k == "X-Forwarded-For") = false := by simpa using h2
  have e3 : (k == "X-Forwarded-Host") = false := by simpa using h3
  have e4 : (k == "X-Forwarded-Proto") = false := by simpa using h4
  simp [h1, h2, h3, h4, e1, e2, e3, e4]

theorem Header.set_of_not_mem (h : Header) (k : String) (v : List String)
    (hk : k ∉ Header.keys h) : Header.set h k v = h ++ [(k, v)] := by
  induction h with
  | nil => rfl
  | cons e rest ih =>
    obtain ⟨k0, v0⟩ := e
    simp only [Header.keys, List.map_cons, List.mem_cons, not_or] at hk
    have hne : ¬ k0 = k := fun h => hk.1 h.symm
    simp only [Header.set, hne, if_false, List.cons_append]
    rw [ih hk.2]

theorem foldl_filterStep (l acc : Header)
    (hnd : (Header.keys l).Nodup)
    (hdis : ∀ k, k ∈ Header.keys l → k ∉ Header.keys acc) :
    l.foldl filterStep acc = acc ++ l.filter (fun e => !blockedRequestKeys e.1) := by
  induction l generalizing acc with
  | nil => simp
  | cons e rest ih =>
    obtain ⟨k0, v0⟩ := e
    simp only [Header.keys, List.map_cons, List.nodup_cons] at hnd
    simp only [List.foldl_cons, filterStep]
    by_cases hb : blockedRequestKeys k0 = true
    · simp only [hb, if_true]
      rw [ih acc hnd.2 (fun k hk => hdis k (by simp [Header.keys] at hk ⊢; exact Or.inr hk))]
      simp [List.filter_cons, hb]
    · have hb0 : blockedRequestKeys k0 = false := by simpa using hb
      simp only [hb0, Bool.false_eq_true, if_false]
      have hk0 : k0 ∉ Header.keys acc := hdis k0 (by simp [Header.keys])
      rw [Header.set_of_not_mem acc k0 v0 hk0]
      rw [ih (acc ++ [(k0, v0)]) hnd.2]
      · simp [List.filter_cons, hb0]
      · intro k hk hmem
        simp only [Header.keys, List.map_append, List.map_cons, List.map_nil, List.mem_append,
          List.mem_singleton] at hmem
        rcases hmem with hmem | hmem
        · exact hdis k (by simp [Header.keys] at hk ⊢; exact Or.inr hk) hmem
        · subst hmem
          exact hnd.1 hk

theorem filterHeader_eq_filter (h : Header) (hnd : Header.WellFormed h) :
    filterHeader h = h.filter (fun e => !blockedRequestKeys e.1) := by
  unfold filterHeader
  rw [foldl_filterStep h [] hnd (fun k _ => by simp [Header.keys])]
  simp

theorem lookup_filter_key (p : String → Bool) (h : Header) (k : String) :
    List.lookup k (h.filter (fun e => p e.1)) = if p k then List.lookup k h else none := by
  induction h with
  | nil => simp
  | cons e rest ih =>
    obtain ⟨k0, v0⟩ := e
    by_cases hk : k = k0
    · subst hk
      by_cases hp : p k = true
      · simp [List.filter_cons, hp, List.lookup]
      · simp [List.filter_cons, hp, ih]
    · have hbeq : (k == k0) = false := by simpa using hk
      by_cases hp : p k0 = true
      · simp [List.filter_cons, hp, List.lookup, hbeq, ih]
      · simp [List.filter_cons, hp, List.lookup, hbeq, ih]

theorem Header.mem_keys_set (h : Header) (k : String) (v : List String) (k1 : String) :
    k1 ∈ Header.keys (Header.set h k v) ↔ k1 ∈ Header.keys h ∨ k1 = k := by
  induction h with
  | nil => simp [Header.set, Header.keys]
  | cons e rest ih =>
    obtain ⟨k0, v0⟩ := e
    by_cases hk : k0 = k
    · subst hk
      simp only [Header.set, if_true, Header.keys, List.map_cons, List.mem_cons]
      tauto
    · simp only [Header.set, hk, if_false, Header.keys, List.map_cons, List.mem_cons]
      simp only [Header.keys] at ih
      rw [ih]
      tauto

theorem mem_keys_foldl_filterStep (l acc : Header) (k : String) :
    k ∈ Header.keys (l.foldl filterStep acc) ↔
      k ∈ Header.keys acc ∨ (k ∈ Header.keys l ∧ blockedRequestKeys k = false) := by
  induction l generalizing acc with
  | nil => simp [Header.keys]
  | cons e rest ih =>
    obtain ⟨k0, v0⟩ := e
    simp only [List.foldl_cons]
    rw [ih]
    by_cases hb : blockedRequestKeys k0 = true
    · simp only [filterStep, hb, if_true, Header.keys, List.map_cons, List.mem_cons]
      constructor
      · rintro (h1 | ⟨h1, h2⟩)
        · exact Or.inl h1
        · exact Or.inr ⟨Or.inr h1, h2⟩
      · rintro (h1 | ⟨h1 | h1, h2⟩)
        · exact Or.inl h1
        · subst h1
          rw [hb] at h2
          exact absurd h2 (by decide)
        · exact Or.inr ⟨h1, h2⟩
    · have hb0 : blockedRequestKeys k0 = false := by simpa using hb
      simp only [filterStep, hb0, Bool.false_eq_true, if_false, Header.mem_keys_set]
      simp only [Header.keys, List.map_cons, List.mem_cons]
      constructor
      · rintro ((h1 | h1) | ⟨h1, h2⟩)
        · exact Or.inl h1
        · subst h1
          exact Or.inr ⟨Or.inl rfl, hb0⟩
        · exact Or.inr ⟨Or.inr h1, h2⟩
      · rintro (h1 | ⟨h1 | h1, h2⟩)
        · exact Or.inl (Or.inl h1)
        · exact Or.inl (Or.inr h1)
        · exact Or.inr ⟨h1, h2⟩

theorem mem_keys_filterHeader (h : Header) (k : String) :
    k ∈ Header.keys (filterHeader h) ↔ k ∈ Header.keys h ∧ k ∉ blockedNames := by
  unfold filterHeader
  rw [mem_keys_foldl_filterStep, ← blockedRequestKeys_iff]
  simp [Header.keys]

theorem get_filterHeader (h : Header) (hwf : Header.WellFormed h) (k : String) :
    Header.get (filterHeader h) k = if k ∈ blockedNames then none else Header.get h k := by
  rw [filterHeader_eq_filter h hwf]
  unfold Header.get
  rw [lookup_filter_key (fun k => !blockedRequestKeys k) h k]
  by_cases hb : blockedRequestKeys k = true
  · have hm : k ∈ blockedNames := (blockedRequestKeys_iff k).1 hb
    simp [hb, hm]
  · have hb0 : blockedRequestKeys k = false := by simpa using hb
    have hm : k ∉ blockedNames := fun hm => hb ((blockedRequestKeys_iff k).2 hm)
    simp [hb0, hm]

theorem wellFormed_filterHeader (h : Header) (hwf : Header.WellFormed h) :
    Header.WellFormed (filterHeader h) := by
  rw [filterHeader_eq_filter h hwf]
  unfold Header.WellFormed Header.keys at *
  exact List.Nodup.sublist (List.Sublist.map Prod.fst (List.filter_sublist h)) hwf

theorem handleFunc_request_header (osArgs : List String)
    (roundTrip : Request → Except String Response) (w : ResponseWriter) (r : Request) :
    (handleFunc osArgs roundTrip w r).r.Header = r.Header := by
  unfold handleFunc
  cases osArgs[1]? with
  | none => rfl
  | some u =>
    simp only
    cases roundTrip (forwardedRequest u r) <;> rfl

theorem handleFunc_dispatched (osArgs : List String)
    (roundTrip : Request → Except String Response) (w : ResponseWriter) (r : Request)
    (u : String) (hu : osArgs[1]? = some u) :
    dispatched (handleFunc osArgs roundTrip w r).trace = [forwardedRequest u r] := by
  unfold handleFunc
  rw [hu]
  simp only
  cases hrt : roundTrip (forwardedRequest u r) with
  | error e => simp [dispatched]
  | ok resp =>
    simp only
    cases (ioCopy (ResponseWriter.WriteHeader w resp.StatusCode) resp.Body).2 <;>
      simp [dispatched]

/-! ## The header filter -/

/-- C1: for every inbound header map `h` (a Go map, so with distinct keys) the
map `hh` built by the loop has exactly the keys of `h` that are not one of the
four blocked names, each such key reads the same value sequence as in `h`, no
blocked name is a key of `hh`, `hh` is again a map, the handler leaves the
header map of the inbound request as it was, and `hh` is the header map of the
one request handed to the transport. -/
theorem handleFunc_header_filter (h : Header) (hwf : Header.WellFormed h) :
    (∀ k, k ∈ Header.keys (filterHeader h) ↔ (k ∈ Header.keys h ∧ k ∉ blockedNames)) ∧
    (∀ k, k ∈ Header.keys (filterHeader h) →
      Header.get (filterHeader h) k = Header.get h k) ∧
    (∀ k, k ∈ blockedNames →
      k ∉ Header.keys (filterHeader h) ∧ Header.get (filterHeader h) k = none) ∧
    Header.WellFormed (filterHeader h) ∧
    (∀ (osArgs : List String) (roundTrip : Request → Except String Response)
        (w : ResponseWriter) (r : Request), r.Header = h →
      (handleFunc osArgs roundTrip w r).r.Header = h ∧
      ∀ u, osArgs[1]? = some u →
        ∃ rr, dispatched (handleFunc osArgs roundTrip w r).trace = [rr] ∧
          rr.Header = filterHeader h) := by
  refine ⟨fun k => mem_keys_filterHeader h k, ?_, ?_, wellFormed_filterHeader h hwf, ?_⟩
  · intro k hk
    have hnb : k ∉ blockedNames := ((mem_keys_filterHeader h k).1 hk).2
    rw [get_filterHeader h hwf k, if_neg hnb]
  · intro k hk
    refine ⟨fun hmem => ((mem_keys_filterHeader h k).1 hmem).2 hk, ?_⟩
    rw [get_filterHeader h hwf k, if_pos hk]
  · intro osArgs roundTrip w r hr
    refine ⟨by rw [handleFunc_request_header, hr], ?_⟩
    intro u hu
    exact ⟨forwardedRequest u r, handleFunc_dispatched osArgs roundTrip w r u hu, by
      rw [← hr]; rfl⟩

/-- The filter on `sampleHeader`: the map is well formed, and its filtered
keys are its keys less the blocked names. -/
theorem handleFunc_header_filter_witness :
    Header.WellFormed sampleHeader ∧
    (∀ k, k ∈ Header.keys (filterHeader sampleHeader) ↔
      (k ∈ Header.keys sampleHeader ∧ k ∉ blockedNames)) :=
  ⟨by decide, (handleFunc_header_filter sampleHeader (by decide)).1⟩

/-- C5 as stated fails: the stored key `x-forwarded-for` equals the blocked
name `X-Forwarded-For` when case is ignored, and the filter keeps it. -/
theorem filterHeader_keeps_case_variant :
    ¬ (∀ h : Header, Header.WellFormed h →
        ∀ k, k ∈ Header.keys (filterHeader h) →
          ∀ b, b ∈ blockedNames → equalFold k b = false) := by
  intro hall
  have h1 := hall lowerCaseHeader (by decide) "x-forwarded-for" (by decide)
    "X-Forwarded-For" (by decide)
  exact absurd h1 (by decide)

/-- C5, amended: for every inbound header map the outbound map holds no key
that is exactly one of the four blocked names, and it holds every other key
of the inbound map, a key that differs from a blocked name only in letter
case included. -/
theorem filterHeader_exact_match_only (h : Header) :
    (∀ k, k ∈ Header.keys (filterHeader h) → k ∉ blockedNames) ∧
    (∀ k, k ∈ Header.keys h → k ∉ blockedNames → k ∈ Header.keys (filterHeader h)) :=
  ⟨fun k hk => ((mem_keys_filterHeader h k).1 hk).2,
   fun k hk hnb => (mem_keys_filterHeader h k).2 ⟨hk, hnb⟩⟩

/-! ## The request forwarder -/

/-- C3: for every inbound request `r` and upstream host `u = os.Args[1]`, the
handler hands exactly one request to the transport; its URL has host `u` and
is otherwise the URL of `r` (same scheme, path and query), and it carries the
method and the body stream of `r`. -/
theorem handleFunc_url_rewrite (osArgs : List String)
    (roundTrip : Request → Except String Response) (w : ResponseWriter) (r : Request)
    (u : String) (hu : osArgs[1]? = some u) :
    ∃ rr, dispatched (handleFunc osArgs roundTrip w r).trace = [rr] ∧
      rr.URL.Host = u ∧
      rr.URL.Scheme = r.URL.Scheme ∧
      rr.URL.Path = r.URL.Path ∧
      rr.URL.RawQuery = r.URL.RawQuery ∧
      rr.URL = { r.URL with Host := u } ∧
      rr.Method = r.Method ∧
      rr.Body = r.Body :=
  ⟨forwardedRequest u r, handleFunc_dispatched osArgs roundTrip w r u hu,
    rfl, rfl, rfl, rfl, rfl, rfl, rfl⟩

/-- The rewrite of `https://anyhost/path?q=1` for upstream
`upstream.example:9000`. -/
theorem handleFunc_url_rewrite_witness :
    sampleArgs[1]? = some "upstream.example:9000" ∧
    ∃ rr, dispatched
        (handleFunc sampleArgs answeringTransport ResponseWriter.fresh sampleRequest).trace
          = [rr] ∧
      rr.URL.Host = "upstream.example:9000" ∧
      rr.URL.Scheme = "https" ∧
      rr.URL.Path = "/path" ∧
      rr.URL.RawQuery = "q=1" ∧
      rr.URL = { sampleURL with Host := "upstream.example:9000" } ∧
      rr.Method = "GET" ∧
      rr.Body = sampleRequest.Body :=
  ⟨rfl, handleFunc_url_rewrite sampleArgs answeringTransport ResponseWriter.fresh
    sampleRequest "upstream.example:9000" rfl⟩

/-- C4: when the transport returns an error for the forwarded request, the
handler has made exactly one dispatch, the caller gets status 500, the body
written is the fixed message "Could not reach origin server" as `http.Error`
prints it (followed by a line end), and the whole response is the same for
any other transport error, so nothing of the error reaches the caller. -/
theorem handleFunc_dispatch_failure (osArgs : List String)
    (roundTrip : Request → Except String Response) (w : ResponseWriter) (r : Request)
    (u e : String) (hu : osArgs[1]? = some u) (hw : w.wroteHeader = false)
    (herr : roundTrip (forwardedRequest u r) = Except.error e) :
    dispatched (handleFunc osArgs roundTrip w r).trace = [forwardedRequest u r] ∧
    (handleFunc osArgs roundTrip w r).w.wroteHeader = true ∧
    (handleFunc osArgs roundTrip w r).w.status = 500 ∧
    (handleFunc osArgs roundTrip w r).w.body
      = w.body ++ utf8Bytes ("Could not reach origin server" ++ "\n") ∧
    (handleFunc osArgs roundTrip w r).resp = none ∧
    (∀ (roundTrip2 : Request → Except String Response) (e2 : String),
      roundTrip2 (forwardedRequest u r) = Except.error e2 →
      (handleFunc osArgs roundTrip2 w r).w = (handleFunc osArgs roundTrip w r).w) := by
  have hout : ∀ (rt : Request → Except String Response) (e1 : String),
      rt (forwardedRequest u r) = Except.error e1 →
      (handleFunc osArgs rt w r).w = httpError w "Could not reach origin server" 500 ∧
      (handleFunc osArgs rt w r).resp = none := by
    intro rt e1 h1
    unfold handleFunc
    rw [hu]
    simp [h1]
  refine ⟨handleFunc_dispatched osArgs roundTrip w r u hu, ?_, ?_, ?_,
    (hout roundTrip e herr).2, ?_⟩
  · rw [(hout roundTrip e herr).1]
    simp [httpError, ResponseWriter.Write, ResponseWriter.WriteHeader, hw]
  · rw [(hout roundTrip e herr).1]
    simp [httpError, ResponseWriter.Write, ResponseWriter.WriteHeader, hw]
  · rw [(hout roundTrip e herr).1]
    simp [httpError, ResponseWriter.Write, ResponseWriter.WriteHeader, hw]
  · intro roundTrip2 e2 h2
    rw [(hout roundTrip e herr).1, (hout roundTrip2 e2 h2).1]

/-- A refused connection on `sampleRequest`: one dispatch, status 500, the
fixed body, and the same response as for a time-out. -/
theorem handleFunc_dispatch_failure_witness :
    sampleArgs[1]? = some "upstream.example:9000" ∧
    ResponseWriter.fresh.wroteHeader = false ∧
    refusingTransport (forwardedRequest "upstream.example:9000" sampleRequest)
      = Except.error "dial tcp 10.0.0.5:9000: connect: connection refused" ∧
    (handleFunc sampleArgs refusingTransport ResponseWriter.fresh sampleRequest).w.status
      = 500 ∧
    (handleFunc sampleArgs timeoutTransport ResponseWriter.fresh sampleRequest).w
      = (handleFunc sampleArgs refusingTransport ResponseWriter.fresh sampleRequest).w :=
  have h := handleFunc_dispatch_failure sampleArgs refusingTransport ResponseWriter.fresh
    sampleRequest "upstream.example:9000"
    "dial tcp 10.0.0.5:9000: connect: connection refused" rfl rfl rfl
  ⟨rfl, rfl, rfl, h.2.2.1,
    h.2.2.2.2.2 timeoutTransport "dial tcp 10.0.0.5:9000: i/o timeout" rfl⟩

/-- C2, on the code: for `sampleResponse`, whose header map has the key
`Content-Type`, the caller gets the upstream status code 200 but an empty
header map; line 91 has overwritten the header map of the upstream response
with that of the response writer. -/
theorem handleFunc_drops_upstream_header :
    answeringTransport (forwardedRequest "upstream.example:9000" sampleRequest)
      = Except.ok sampleResponse ∧
    Header.get sampleResponse.Header "Content-Type" = some ["text/html"] ∧
    (handleFunc sampleArgs answeringTransport ResponseWriter.fresh sampleRequest).w.status
      = 200 ∧
    (handleFunc sampleArgs answeringTransport ResponseWriter.fresh sampleRequest).w.sentHeader
      = [] ∧
    Header.get
      (handleFunc sampleArgs answeringTransport ResponseWriter.fresh sampleRequest).w.sentHeader
      "Content-Type" = none ∧
    (handleFunc sampleArgs answeringTransport ResponseWriter.fresh sampleRequest).resp
      = some { sampleResponse with Header := [] } := by
  refine ⟨rfl, ?_, ?_, ?_, ?_, ?_⟩ <;> decide

/-- C9, on the code: for a refused connection the trace of the handler is the
receipt line and the dispatch, and holds no line of the `log` package. -/
theorem handleFunc_failure_not_logged :
    (handleFunc sampleArgs refusingTransport ResponseWriter.fresh sampleRequest).trace
      = [Event.printf "--> %v %v\n" [FmtArg.str "GET", FmtArg.url sampleURL],
         Event.roundTrip (forwardedRequest "upstream.example:9000" sampleRequest)] ∧
    (handleFunc sampleArgs refusingTransport ResponseWriter.fresh sampleRequest).trace.all
      (fun ev => !Event.isLog ev) = true ∧
    (handleFunc sampleArgs refusingTransport ResponseWriter.fresh sampleRequest).panicked
      = none := by
  refine ⟨?_, ?_, ?_⟩ <;> decide

/-! ## Lemmas on the file system -/

theorem lookup_putFile (fs : List (String × File)) (p : String) (f : File) (q : String) :
    List.lookup q (putFile fs p f) = if q = p then some f else List.lookup q fs := by
  induction fs with
  | nil =>
    by_cases hq : q = p
    · simp [putFile, List.lookup, hq]
    · have hb : (q == p) = false := by simpa using hq
      simp [putFile, List.lookup, hq, hb]
  | cons e rest ih =>
    obtain ⟨p0, f0⟩ := e
    by_cases hp : p0 = p
    · subst hp
      by_cases hq : q = p0
      · simp [putFile, List.lookup, hq]
      · have hb : (q == p0) = false := by simpa using hq
        simp [putFile, List.lookup, hq, hb]
    · by_cases hq0 : q = p0
      · subst hq0
        simp [putFile, List.lookup, hp]
      · have hb : (q == p0) = false := by simpa using hq0
        simp [putFile, List.lookup, hp, hb, ih]

theorem openTrunc_ok (fs fs1 : FS) (p : String) (perm : Nat)
    (h : FS.openTrunc fs p perm = Except.ok fs1) :
    fs1.umask = fs.umask ∧
    (∀ q, q ≠ p → FS.lookup fs1 q = FS.lookup fs q) ∧
    (∀ f, FS.lookup fs p = some f →
      FS.lookup fs1 p = some { mode := f.mode, content := [] }) ∧
    (FS.lookup fs p = none →
      FS.lookup fs1 p = some { mode := applyUmask perm fs.umask, content := [] }) := by
  unfold FS.openTrunc at h
  split at h
  · cases h
  · split at h
    · rename_i f hf
      injection h with h
      subst h
      refine ⟨rfl, ?_, ?_, ?_⟩
      · intro q hq
        simp [FS.lookup, lookup_putFile, hq]
      · intro g hg
        rw [hf] at hg
        injection hg with hg
        subst hg
        simp [FS.lookup, lookup_putFile]
      · intro hg
        rw [hf] at hg
        cases hg
    · rename_i hf
      injection h with h
      subst h
      refine ⟨rfl, ?_, ?_, ?_⟩
      · intro q hq
        simp [FS.lookup, lookup_putFile, hq]
      · intro g hg
        rw [hf] at hg
        cases hg
      · intro _
        simp [FS.lookup, lookup_putFile]

theorem append_umask (fs : FS) (p : String) (bytes : List Nat) :
    (FS.append fs p bytes).umask = fs.umask := by
  unfold FS.append
  split <;> rfl

theorem lookup_append_ne (fs : FS) (p : String) (bytes : List Nat) (q : String)
    (hq : q ≠ p) : FS.lookup (FS.append fs p bytes) q = FS.lookup fs q := by
  unfold FS.append
  split
  · simp [FS.lookup, lookup_putFile, hq]
  · rfl

theorem lookup_append_self (fs : FS) (p : String) (bytes : List Nat) (f : File)
    (hf : FS.lookup fs p = some f) :
    FS.lookup (FS.append fs p bytes) p
      = some { mode := f.mode, content := f.content ++ bytes } := by
  unfold FS.append
  rw [hf]
  simp [FS.lookup, lookup_putFile]

theorem applyUmask_owner_only (umask : Nat) : applyUmask 0o600 umask &&& 0o077 = 0 := by
  apply Nat.eq_of_testBit_eq
  intro i
  have h0 : (0o600 &&& 0o077 : Nat) = 0 := by decide
  have hi : (Nat.testBit 0o600 i && Nat.testBit 0o077 i) = false := by
    rw [← Nat.testBit_and, h0, Nat.zero_testBit]
  rw [applyUmask, Nat.testBit_and, Nat.testBit_xor, Nat.testBit_and, Nat.zero_testBit]
  revert hi
  cases Nat.testBit 0o600 i <;> cases Nat.testBit 0o077 i <;>
    cases Nat.testBit umask i <;> decide

/-! ## Lemmas on start-up -/

theorem mkcert_done (env : CryptoEnv) (cert key : String) (s s1 : World)
    (h : mkcert env cert key s = (s1, Outcome.done)) :
    ∃ certPem keyPem fs1 fs5,
      FS.openTrunc s.fs cert 0o666 = Except.ok fs1 ∧
      FS.openTrunc (FS.append fs1 cert certPem) key 0o600 = Except.ok fs5 ∧
      s1.fs = FS.append fs5 key keyPem ∧
      s1.trace = s.trace ++ [SysEvent.mkcertCall, SysEvent.openFile cert 0o666,
        SysEvent.openFile key 0o600, SysEvent.logPrint ["Created new keypair: ", key]] := by
  unfold mkcert at h
  simp only [World.emit] at h
  split at h
  · cases h
  split at h
  · cases h
  split at h
  · cases h
  split at h
  · cases h
  rename_i fs1 hfs1
  split at h
  · cases h
  rename_i certPem _
  split at h
  · cases h
  split at h
  · cases h
  rename_i fs5 hfs5
  split at h
  · cases h
  rename_i keyPem _
  injection h with h _
  subst h
  exact ⟨certPem, keyPem, fs1, fs5, hfs1, hfs5, rfl, by simp⟩

theorem bootstrap_of_exists (env : CryptoEnv) (cert key : String) (s : World) (f : File)
    (hf : FS.lookup s.fs key = some f) :
    bootstrap env cert key s = (World.emit s (SysEvent.stat key), Outcome.done) := by
  unfold bootstrap
  simp [World.emit, FS.stat, hf]

theorem bootstrap_of_absent (env : CryptoEnv) (cert key : String) (s : World)
    (hf : FS.lookup s.fs key = none) :
    bootstrap env cert key s = mkcert env cert key (World.emit s (SysEvent.stat key)) := by
  unfold bootstrap
  simp [World.emit, FS.stat, hf]

theorem mkcert_key_file (env : CryptoEnv) (cert key : String) (s s1 : World)
    (h : mkcert env cert key s = (s1, Outcome.done)) :
    ∃ f, FS.lookup s1.fs key = some f ∧
      (cert ≠ key → FS.lookup s.fs key = none → f.mode = applyUmask 0o600 s.fs.umask) := by
  obtain ⟨certPem, keyPem, fs1, fs5, h1, h5, hfs, _⟩ := mkcert_done env cert key s s1 h
  have o1 := openTrunc_ok _ _ _ _ h1
  have o5 := openTrunc_ok _ _ _ _ h5
  cases hk : FS.lookup (FS.append fs1 cert certPem) key with
  | some g =>
    have h6 := o5.2.2.1 g hk
    refine ⟨_, by rw [hfs]; exact lookup_append_self fs5 key keyPem _ h6, ?_⟩
    intro hne habs
    have hkc : key ≠ cert := fun e => hne e.symm
    rw [lookup_append_ne fs1 cert certPem key hkc, o1.2.1 key hkc, habs] at hk
    cases hk
  | none =>
    have h6 := o5.2.2.2 hk
    refine ⟨_, by rw [hfs]; exact lookup_append_self fs5 key keyPem _ h6, ?_⟩
    intro _ _
    simp only [append_umask, o1.1]

theorem bootstrap_key_exists (env : CryptoEnv) (cert key : String) (s s1 : World)
    (h : bootstrap env cert key s = (s1, Outcome.done)) :
    ∃ f, FS.lookup s1.fs key = some f := by
  cases hk : FS.lookup s.fs key with
  | some f =>
    rw [bootstrap_of_exists env cert key s f hk] at h
    injection h with h _
    subst h
    exact ⟨f, hk⟩
  | none =>
    rw [bootstrap_of_absent env cert key s hk] at h
    obtain ⟨f, hf, _⟩ := mkcert_key_file env cert key _ s1 h
    exact ⟨f, hf⟩

theorem applyUmask_of_disjoint (perm umask : Nat) (h : umask &&& perm = 0) :
    applyUmask perm umask = perm := by
  unfold applyUmask
  rw [Nat.land_comm, h, Nat.xor_zero]

/-! ## The certificate store -/

/-- C6 as stated fails: with a key file of mode 0644 already in place the
bootstrap completes without touching it, and the file still grants read
access to group and others. -/
theorem bootstrap_keeps_loose_key_mode :
    bootstrap sampleCrypto sampleCertFile sampleKeyFile looseKeyWorld
      = (World.emit looseKeyWorld (SysEvent.stat sampleKeyFile), Outcome.done) ∧
    FS.lookup (bootstrap sampleCrypto sampleCertFile sampleKeyFile looseKeyWorld).1.fs
      sampleKeyFile = some { mode := 0o644, content := [45, 45] } ∧
    (0o644 &&& 0o077 : Nat) = 0o044 ∧
    ¬ (∀ f, FS.lookup (bootstrap sampleCrypto sampleCertFile sampleKeyFile looseKeyWorld).1.fs
        sampleKeyFile = some f → f.mode &&& 0o077 = 0) := by
  refine ⟨by decide, by decide, by decide, ?_⟩
  intro hall
  exact absurd (hall { mode := 0o644, content := [45, 45] } (by decide)) (by decide)

/-- C6, amended: for every initial state in which the key file is absent and
from which the bootstrap completes, the key file exists afterwards with the
mode `mkcert` asked for, 0600 less the bits the umask removes, so it grants
nothing beyond the owner (mode & 0o077 = 0), and the mode is 0600 itself
when the umask removes none of these bits. A key file that exists before the
bootstrap is left as it is. -/
theorem bootstrap_key_mode (env : CryptoEnv) (cert key : String) (s s1 : World)
    (hne : cert ≠ key) (habs : FS.lookup s.fs key = none)
    (hdone : bootstrap env cert key s = (s1, Outcome.done)) :
    (∃ f, FS.lookup s1.fs key = some f ∧
      f.mode = applyUmask 0o600 s.fs.umask ∧
      f.mode &&& 0o077 = 0 ∧
      (s.fs.umask &&& 0o600 = 0 → f.mode = 0o600)) ∧
    (∀ (s0 : World) (f0 : File), FS.lookup s0.fs key = some f0 →
      (bootstrap env cert key s0).1.fs = s0.fs ∧
      (bootstrap env cert key s0).2 = Outcome.done) := by
  constructor
  · rw [bootstrap_of_absent env cert key s habs] at hdone
    obtain ⟨f, hf, hmode⟩ := mkcert_key_file env cert key _ s1 hdone
    have hm : f.mode = applyUmask 0o600 s.fs.umask := hmode hne habs
    refine ⟨f, hf, hm, ?_, ?_⟩
    · rw [hm]
      exact applyUmask_owner_only s.fs.umask
    · intro hu
      rw [hm]
      exact applyUmask_of_disjoint 0o600 s.fs.umask hu
  · intro s0 f0 h0
    rw [bootstrap_of_exists env cert key s0 f0 h0]
    exact ⟨rfl, rfl⟩

/-- A first run for user `alice` under umask 022: the key file is created with
mode 0600. -/
theorem bootstrap_key_mode_witness :
    sampleCertFile ≠ sampleKeyFile ∧
    FS.lookup emptyWorld.fs sampleKeyFile = none ∧
    (bootstrap sampleCrypto sampleCertFile sampleKeyFile emptyWorld).2 = Outcome.done ∧
    ∃ f, FS.lookup (bootstrap sampleCrypto sampleCertFile sampleKeyFile emptyWorld).1.fs
        sampleKeyFile = some f ∧
      f.mode = applyUmask 0o600 emptyWorld.fs.umask ∧
      f.mode &&& 0o077 = 0 ∧
      (emptyWorld.fs.umask &&& 0o600 = 0 → f.mode = 0o600) :=
  ⟨by decide, by decide, by decide,
    (bootstrap_key_mode sampleCrypto sampleCertFile sampleKeyFile emptyWorld
      (bootstrap sampleCrypto sampleCertFile sampleKeyFile emptyWorld).1
      (by decide) (by decide) (by decide)).1⟩

/-- C7: in every state in which the key file exists the bootstrap only runs the
existence check, so it does not call `mkcert` and leaves the file system as
it is; and after a bootstrap that completed, a second bootstrap, whatever
the library calls would return, is such a run: it completes and leaves every
file, the key and the certificate included, unchanged. -/
theorem bootstrap_idempotent (env1 env2 : CryptoEnv) (cert key : String) (s s1 : World)
    (hdone : bootstrap env1 cert key s = (s1, Outcome.done)) :
    (∀ (s0 : World) (f0 : File), FS.lookup s0.fs key = some f0 →
      bootstrap env2 cert key s0 = (World.emit s0 (SysEvent.stat key), Outcome.done) ∧
      (bootstrap env2 cert key s0).1.trace = s0.trace ++ [SysEvent.stat key] ∧
      (bootstrap env2 cert key s0).1.fs = s0.fs) ∧
    bootstrap env2 cert key s1 = (World.emit s1 (SysEvent.stat key), Outcome.done) ∧
    (bootstrap env2 cert key s1).1.fs = s1.fs ∧
    FS.lookup (bootstrap env2 cert key s1).1.fs key = FS.lookup s1.fs key ∧
    FS.lookup (bootstrap env2 cert key s1).1.fs cert = FS.lookup s1.fs cert := by
  have hex : ∀ (s0 : World) (f0 : File), FS.lookup s0.fs key = some f0 →
      bootstrap env2 cert key s0 = (World.emit s0 (SysEvent.stat key), Outcome.done) :=
    fun s0 f0 h0 => bootstrap_of_exists env2 cert key s0 f0 h0
  obtain ⟨f, hf⟩ := bootstrap_key_exists env1 cert key s s1 hdone
  refine ⟨?_, hex s1 f hf, ?_, ?_, ?_⟩
  · intro s0 f0 h0
    rw [hex s0 f0 h0]
    exact ⟨rfl, rfl, rfl⟩
  · rw [hex s1 f hf]; rfl
  · rw [hex s1 f hf]; rfl
  · rw [hex s1 f hf]; rfl

/-- Two bootstraps in a row from an empty directory: the second one changes no
file. -/
theorem bootstrap_idempotent_witness :
    (bootstrap sampleCrypto sampleCertFile sampleKeyFile emptyWorld).2 = Outcome.done ∧
    (bootstrap sampleCrypto sampleCertFile sampleKeyFile
      (bootstrap sampleCrypto sampleCertFile sampleKeyFile emptyWorld).1).1.fs
      = (bootstrap sampleCrypto sampleCertFile sampleKeyFile emptyWorld).1.fs :=
  ⟨by decide,
    (bootstrap_idempotent sampleCrypto sampleCrypto sampleCertFile sampleKeyFile emptyWorld
      (bootstrap sampleCrypto sampleCertFile sampleKeyFile emptyWorld).1 (by decide)).2.2.1⟩

/-- C10: for every clock reading `now`, the template has `NotBefore = now`
and `NotAfter` later by exactly 3 * 365 days, that is 94,608,000 seconds; the
duration is computed in int64 nanoseconds without wrap-around; the key usage
holds the digital-signature and the key-encipherment bit, and the extended
key usage is server authentication. -/
theorem certTemplate_validity (now : Time) (serialNumber : Nat) :
    (certTemplate now serialNumber).NotBefore = now ∧
    (certTemplate now serialNumber).NotAfter - (certTemplate now serialNumber).NotBefore
      = 94608000 * 1000000000 ∧
    Time.Sub (certTemplate now serialNumber).NotAfter (certTemplate now serialNumber).NotBefore
      = 3 * 365 * 24 * (3600 * 1000000000) ∧
    Hour = 3600 * 1000000000 ∧
    certLifetime = 3 * 365 * 24 * Hour ∧
    -(2 ^ 63) ≤ 3 * 365 * 24 * Hour ∧ 3 * 365 * 24 * Hour ≤ 2 ^ 63 - 1 ∧
    (certTemplate now serialNumber).KeyUsage &&& KeyUsageDigitalSignature
      = KeyUsageDigitalSignature ∧
    (certTemplate now serialNumber).KeyUsage &&& KeyUsageKeyEncipherment
      = KeyUsageKeyEncipherment ∧
    KeyUsageDigitalSignature ≠ 0 ∧ KeyUsageKeyEncipherment ≠ 0 ∧
    (certTemplate now serialNumber).ExtKeyUsage = [ExtKeyUsage.ExtKeyUsageServerAuth] := by
  have hHour : Hour = 3600 * 1000000000 := by
    norm_num [Hour, Minute, Second, Millisecond, Microsecond, Nanosecond, wrapInt64]
  have hlife : certLifetime = 94608000 * 1000000000 := by
    rw [certLifetime, hHour]
    norm_num [wrapInt64]
  have hdiff : (certTemplate now serialNumber).NotAfter
      - (certTemplate now serialNumber).NotBefore = 94608000 * 1000000000 := by
    simp only [certTemplate, Time.Add, hlife]
    exact add_sub_cancel_left (now : Int) (94608000 * 1000000000)
  have hku1 : (KeyUsageKeyEncipherment ||| KeyUsageDigitalSignature)
      &&& KeyUsageDigitalSignature = KeyUsageDigitalSignature := by decide
  have hku2 : (KeyUsageKeyEncipherment ||| KeyUsageDigitalSignature)
      &&& KeyUsageKeyEncipherment = KeyUsageKeyEncipherment := by decide
  refine ⟨rfl, hdiff, ?_, hHour, ?_, ?_, ?_, hku1, hku2, by decide, by decide, rfl⟩
  · unfold Time.Sub
    rw [hdiff]
    norm_num
  · rw [hlife, hHour]; norm_num
  · rw [hHour]; norm_num
  · rw [hHour]; norm_num

/-! ## Start-up -/

/-- C8 as stated fails: with no arguments and a user lookup that fails, `main`
panics on line 33 before it looks at the arguments: exit status 2 and no usage
line. -/
theorem main_panics_without_user :
    noUserEnv.osArgs.length ≠ 3 ∧
    main noUserEnv emptyWorld
      = (emptyWorld,
         Outcome.panic "user: Current requires cgo or $USER set in environment") ∧
    Outcome.exitStatus (main noUserEnv emptyWorld).2 = some 2 ∧
    Outcome.exitStatus (main noUserEnv emptyWorld).2 ≠ some 1 ∧
    (main noUserEnv emptyWorld).1.trace = [] := by
  refine ⟨by decide, by decide, by decide, by decide, by decide⟩

/-- C8, amended: for every invocation with `len(os.Args) != 3`, `main` ends
before the key-file check, `mkcert` and `ListenAndServeTLS`, with the file
system as it was; when the user lookup of line 32 succeeds it writes the usage
line to standard error and exits with status 1, and when that lookup fails it
panics on line 33 and writes nothing. -/
theorem main_usage_exit (env : MainEnv) (s : World) (hargs : env.osArgs.length ≠ 3) :
    (∀ homeDir, env.userCurrent = Except.ok homeDir →
      main env s
        = (World.emit s (SysEvent.stderrLine "Usage: mkhttps <src> <dst>\n"), Outcome.exit 1) ∧
      Outcome.exitStatus (main env s).2 = some 1 ∧
      (main env s).1.trace = s.trace ++ [SysEvent.stderrLine "Usage: mkhttps <src> <dst>\n"]) ∧
    (∀ e, env.userCurrent = Except.error e → main env s = (s, Outcome.panic e)) ∧
    (main env s).1.fs = s.fs ∧
    (∃ added, (main env s).1.trace = s.trace ++ added ∧
      added.all (fun ev => !SysEvent.touchesSystem ev) = true) := by
  have hok : ∀ homeDir, env.userCurrent = Except.ok homeDir →
      main env s
        = (World.emit s (SysEvent.stderrLine "Usage: mkhttps <src> <dst>\n"), Outcome.exit 1) := by
    intro homeDir hu
    unfold main
    rw [hu]
    simp [hargs]
  have herr : ∀ e, env.userCurrent = Except.error e → main env s = (s, Outcome.panic e) := by
    intro e hu
    unfold main
    rw [hu]
  refine ⟨?_, herr, ?_, ?_⟩
  · intro homeDir hu
    rw [hok homeDir hu]
    exact ⟨rfl, rfl, rfl⟩
  · cases hu : env.userCurrent with
    | error e => rw [herr e hu]
    | ok homeDir => rw [hok homeDir hu]; rfl
  · cases hu : env.userCurrent with
    | error e =>
      rw [herr e hu]
      exact ⟨[], by simp, rfl⟩
    | ok homeDir =>
      rw [hok homeDir hu]
      exact ⟨[SysEvent.stderrLine "Usage: mkhttps <src> <dst>\n"], rfl, rfl⟩

/-- One argument only, user `alice`: usage line, exit status 1, no file
touched. -/
theorem main_usage_exit_witness :
    oneArgEnv.osArgs.length ≠ 3 ∧
    main oneArgEnv emptyWorld
      = (World.emit emptyWorld (SysEvent.stderrLine "Usage: mkhttps <src> <dst>\n"),
         Outcome.exit 1) ∧
    (main oneArgEnv emptyWorld).1.fs = emptyWorld.fs :=
  have h := main_usage_exit oneArgEnv emptyWorld (by decide)
  ⟨by decide, (h.1 "/home/alice" rfl).1, h.2.2.1⟩

end Mkhttps
